import Mathlib

/-!
Verification of the `serde-iter` crate (SOF3/serde-iter).

The crate has three pieces:
* `CloneOnce` (src/once.rs): a wrapper `CloneOnce(RefCell<Option<I>>)` around a
  use-once iterator.  `Clone::clone` takes the iterator out of the original's
  cell (leaving `None`) and panics if the cell was already `None`; `Iterator::next`
  panics if the cell is `None` and otherwise pulls from the wrapped iterator,
  leaving the (possibly exhausted) iterator in the cell.
* `seq::serialize` (src/seq.rs): clones the iterable, opens a serde sequence with
  `Some(iter.size_hint().0)`, submits every item in order, then ends the sequence;
  every sink failure is propagated with `?`.
* `map::serialize` (src/map.rs): opens a serde map with `Some(iter.size_hint().0)`
  (read from the original), iterates a clone, submits each pair with
  `serialize_entry(&key, &value)`, then ends the map.

Modelling choices:
* A concrete Rust iterator is modelled as `Iter`: the list of remaining items plus
  the two components of its `size_hint()`.  `Iter.fromList` mirrors a vector
  iterator (exact size hint); its `Clone` is the trivial duplicating clone.
* Panics are modelled as `Except.error msg : Except String _` carrying the exact
  panic message from the source; a run of a serializer over a `CloneOnce` returns
  a `RunResult` distinguishing success, sink error and panic.
* A serde `Serializer`+`SerializeSeq` pair is an abstract deterministic sink:
  a state type `σ`, `serialize_seq`, `serialize_element`, `end`.  Concrete sinks
  (an accumulating sink and a call-trace sink) instantiate it for the theorems.
* The generic Rust functions are embedded monomorphized: `seq.serialize` /
  `map.serialize` at a plain cloneable `Iter`, and `seq.serializeOnce` at
  `CloneOnce` (where `clone` and `next` can panic).
-/

/-- A concrete finite Rust iterator: its remaining items together with the
`size_hint()` it reports (lower bound, optional upper bound). `next` pulls the
head of `items`. -/
structure Iter (α : Type) where
  items : List α
  sizeHintLo : Nat
  sizeHintHi : Option Nat
deriving DecidableEq, Repr

/-- `Iterator::next` on a concrete iterator: yield the head of the remaining
items, or `none` when exhausted. -/
def Iter.next (it : Iter α) : Option α × Iter α :=
  match it.items with
  | [] => (none, it)
  | x :: xs => (some x, { it with items := xs })

/-- `Iterator::size_hint` on a concrete iterator. -/
def Iter.sizeHint (it : Iter α) : Nat × Option Nat :=
  (it.sizeHintLo, it.sizeHintHi)

/-- An ordinary (non-destructive) `Clone::clone`: the copy is equal to the
original and the original is unaffected. -/
def Iter.clone (it : Iter α) : Iter α := it

/-- An iterator over a list with an exact size hint, as reported by e.g.
`std::vec::IntoIter`. -/
def Iter.fromList (l : List α) : Iter α :=
  ⟨l, l.length, some l.length⟩

/-- src/once.rs: `pub struct CloneOnce<T, I>(RefCell<Option<I>>)`.  The cell
holds `some it` while the wrapped iterator is present and `none` after it has
been relocated away by `clone`. -/
structure CloneOnce (α : Type) where
  cell : Option (Iter α)
deriving DecidableEq, Repr

/-- src/once.rs `impl From<I> for CloneOnce`: `Self(RefCell::new(Some(iter)))`. -/
def CloneOnce.fromIter (it : Iter α) : CloneOnce α :=
  ⟨some it⟩

/-- src/once.rs `impl Clone for CloneOnce`:
`let oi = borrow.take(); if oi.is_none() { panic!(...) } Self(RefCell::new(oi))`.
Returns `(original after the call, the returned clone)`; a panic is
`Except.error` with the exact panic message. -/
def CloneOnce.clone (c : CloneOnce α) : Except String (CloneOnce α × CloneOnce α) :=
  match c.cell with
  | none => .error "Attempt to clone a CloneOnce twice"
  | some it => .ok (⟨none⟩, ⟨some it⟩)

/-- src/once.rs `impl Iterator for CloneOnce`, `fn next`:
`let iter = option.expect("Attempt to iterate over a CloneOnce"); iter.next()`.
The advanced wrapped iterator is written back into the cell (the cell stays
`some` even when the wrapped iterator is exhausted). -/
def CloneOnce.next (c : CloneOnce α) : Except String (Option α × CloneOnce α) :=
  match c.cell with
  | none => .error "Attempt to iterate over a CloneOnce"
  | some it =>
    let r := Iter.next it
    .ok (r.1, ⟨some r.2⟩)

/-- `Iterator::size_hint` for `CloneOnce`: the impl in src/once.rs does not
override `size_hint`, so Rust's default `(0, None)` applies regardless of the
wrapped iterator. -/
def CloneOnce.sizeHint (_ : CloneOnce α) : Nat × Option Nat :=
  (0, none)

/-- Measure used for termination of loops that repeatedly call
`CloneOnce.next`. -/
def CloneOnce.stateSize (c : CloneOnce α) : Nat :=
  match c.cell with
  | none => 0
  | some it => it.items.length

/-- Fully iterate a `CloneOnce` by repeated `CloneOnce.next` calls, collecting
the yielded items; stops at the first `none`.  Propagates the panic if any
`next` call panics. -/
def CloneOnce.drain (c : CloneOnce α) : Except String (List α × CloneOnce α) :=
  match hn : CloneOnce.next c with
  | .error e => .error e
  | .ok (none, c') => .ok ([], c')
  | .ok (some v, c') =>
    match CloneOnce.drain c' with
    | .error e => .error e
    | .ok (vs, c'') => .ok (v :: vs, c'')
termination_by CloneOnce.stateSize c
decreasing_by
  rcases c with ⟨_ | ⟨items, lo, hi⟩⟩
  · simp [CloneOnce.next] at hn
  · cases items with
    | nil => simp [CloneOnce.next, Iter.next] at hn
    | cons x xs =>
      simp [CloneOnce.next, Iter.next] at hn
      simp [CloneOnce.stateSize, ← hn.2]

/-- Outcome of running a serializer function that may panic: success with the
sink's final value, a sink error (the `Err` of the Rust `Result`), or a Rust
panic with its message. -/
inductive RunResult (ok err : Type) where
  | ok : ok → RunResult ok err
  | err : err → RunResult ok err
  | panicked : String → RunResult ok err
deriving DecidableEq, Repr

/-- Embed a non-panicking Rust `Result` into `RunResult`. -/
def RunResult.ofExcept {β ε : Type} : Except ε β → RunResult β ε
  | .ok o => .ok o
  | .error e => .err e

/-- An abstract serde sequence sink: the `Serializer::serialize_seq` call
(given the size hint) opens a stateful handle `σ`, `SerializeSeq::serialize_element`
submits one value, `SerializeSeq::end` finishes.  Every call may fail with `err`. -/
structure Serializer (σ ok err α : Type) where
  serializeSeq : Option Nat → Except err σ
  serializeElement : σ → α → Except err σ
  seqEnd : σ → Except err ok

/-- An abstract serde map sink: `Serializer::serialize_map` opens a handle,
`SerializeMap::serialize_entry` submits one key/value entry, `SerializeMap::end`
finishes. -/
structure MapSerializer (σ ok err κ ν : Type) where
  serializeMap : Option Nat → Except err σ
  serializeEntry : σ → κ → ν → Except err σ
  mapEnd : σ → Except err ok

/-- The loop of src/seq.rs `serialize`:
`for value in iter { seq.serialize_element(&value)?; } seq.end()`,
over the items the (non-panicking) iterator will yield. -/
def seq.serializeLoop (ser : Serializer σ ok err α) : List α → σ → Except err ok
  | [], st => ser.seqEnd st
  | v :: rest, st =>
    match ser.serializeElement st v with
    | .error e => .error e
    | .ok st' => seq.serializeLoop ser rest st'

/-- src/seq.rs `serialize`, monomorphized at a plain cloneable iterator `Iter`:
`let iter = iter.clone().into_iter();
 let mut seq = serializer.serialize_seq(Some(iter.size_hint().0))?;
 for value in iter { seq.serialize_element(&value)?; } seq.end()`. -/
def seq.serialize (iter : Iter α) (ser : Serializer σ ok err α) : Except err ok :=
  let it := Iter.clone iter
  match ser.serializeSeq (some (Iter.sizeHint it).1) with
  | .error e => .error e
  | .ok st => seq.serializeLoop ser it.items st

/-- The loop of src/seq.rs `serialize` when the iterator being consumed is a
`CloneOnce` (whose `next` may panic): each step calls `CloneOnce.next`. -/
def seq.serializeOnceLoop (ser : Serializer σ ok err α) (c : CloneOnce α) (st : σ) :
    RunResult ok err :=
  match hn : CloneOnce.next c with
  | .error e => .panicked e
  | .ok (none, _) => RunResult.ofExcept (ser.seqEnd st)
  | .ok (some v, c') =>
    match ser.serializeElement st v with
    | .error e => .err e
    | .ok st' => seq.serializeOnceLoop ser c' st'
termination_by CloneOnce.stateSize c
decreasing_by
  rcases c with ⟨_ | ⟨items, lo, hi⟩⟩
  · simp [CloneOnce.next] at hn
  · cases items with
    | nil => simp [CloneOnce.next, Iter.next] at hn
    | cons x xs =>
      simp [CloneOnce.next, Iter.next] at hn
      simp [CloneOnce.stateSize, ← hn.2]

/-- src/seq.rs `serialize`, monomorphized at `T = CloneOnce` (the clone and the
iteration may panic; `CloneOnce` keeps Rust's default `size_hint`).  Returns the
run outcome together with the original adapter as left behind by the
interior-mutability cell. -/
def seq.serializeOnce (c : CloneOnce α) (ser : Serializer σ ok err α) :
    RunResult ok err × CloneOnce α :=
  match CloneOnce.clone c with
  | .error e => (.panicked e, ⟨none⟩)
  | .ok (orig, copy) =>
    match ser.serializeSeq (some (CloneOnce.sizeHint copy).1) with
    | .error e => (.err e, orig)
    | .ok st => (seq.serializeOnceLoop ser copy st, orig)

/-- The loop of src/map.rs `serialize`:
`for (key, value) in iter.clone() { map.serialize_entry(&key, &value)?; } map.end()`. -/
def map.serializeLoop (ser : MapSerializer σ ok err κ ν) :
    List (κ × ν) → σ → Except err ok
  | [], st => ser.mapEnd st
  | (k, v) :: rest, st =>
    match ser.serializeEntry st k v with
    | .error e => .error e
    | .ok st' => map.serializeLoop ser rest st'

/-- src/map.rs `serialize`, monomorphized at a plain cloneable iterator of pairs:
`let mut map = serializer.serialize_map(Some(iter.size_hint().0))?;
 for (key, value) in iter.clone() { map.serialize_entry(&key, &value)?; }
 map.end()` (the size hint is read from the original, the loop consumes a clone). -/
def map.serialize (iter : Iter (κ × ν)) (ser : MapSerializer σ ok err κ ν) :
    Except err ok :=
  match ser.serializeMap (some (Iter.sizeHint iter).1) with
  | .error e => .error e
  | .ok st => map.serializeLoop ser (Iter.clone iter).items st

/-- One observable call made on a sequence sink. -/
inductive SeqCall (α : Type) where
  | openSeq (hint : Option Nat)
  | elem (v : α)
  | finish
deriving DecidableEq, Repr

/-- One observable call made on a map sink. -/
inductive MapCall (κ ν : Type) where
  | openMap (hint : Option Nat)
  | entry (k : κ) (v : ν)
  | finish
deriving DecidableEq, Repr

/-- A sequence sink that accepts every call and records the exact sequence of
calls made on it; its final value is the full call trace. -/
def seqTraceSink (α : Type) : Serializer (List (SeqCall α)) (List (SeqCall α)) Empty α where
  serializeSeq := fun h => .ok [SeqCall.openSeq h]
  serializeElement := fun st v => .ok (st ++ [SeqCall.elem v])
  seqEnd := fun st => .ok (st ++ [SeqCall.finish])

/-- A sequence sink that accepts every element and returns the list of elements
submitted to it, in submission order. -/
def seqListSink (α : Type) : Serializer (List α) (List α) Empty α where
  serializeSeq := fun _ => .ok []
  serializeElement := fun st v => .ok (st ++ [v])
  seqEnd := fun st => .ok st

/-- A map sink that accepts every call and records the exact sequence of calls
made on it. -/
def mapTraceSink (κ ν : Type) :
    MapSerializer (List (MapCall κ ν)) (List (MapCall κ ν)) Empty κ ν where
  serializeMap := fun h => .ok [MapCall.openMap h]
  serializeEntry := fun st k v => .ok (st ++ [MapCall.entry k v])
  mapEnd := fun st => .ok (st ++ [MapCall.finish])

/-- A map sink that accepts every entry and returns the list of entries
submitted to it, in submission order (no deduplication, no sorting). -/
def mapListSink (κ ν : Type) : MapSerializer (List (κ × ν)) (List (κ × ν)) Empty κ ν where
  serializeMap := fun _ => .ok []
  serializeEntry := fun st k v => .ok (st ++ [(k, v)])
  mapEnd := fun st => .ok st

instance {ε β : Type} [DecidableEq ε] [DecidableEq β] : DecidableEq (Except ε β) := fun a b =>
  match a, b with
  | .ok x, .ok y => if h : x = y then .isTrue (by simp [h]) else .isFalse (by simp [h])
  | .error x, .error y => if h : x = y then .isTrue (by simp [h]) else .isFalse (by simp [h])
  | .ok _, .error _ => .isFalse (by simp)
  | .error _, .ok _ => .isFalse (by simp)

/-- A concrete sequence sink over `Nat` elements whose three operations can be
made to refuse: at opening, at a chosen element value, or at finishing.
Accepted elements are collected in the state. -/
def seqTestSink (failOpen : Bool) (failElem : Nat → Bool) (failEnd : Bool) :
    Serializer (List Nat) (List Nat) String Nat where
  serializeSeq := fun _ => if failOpen then .error "seq open refused" else .ok []
  serializeElement := fun st v =>
    if failElem v then .error "seq element refused" else .ok (st ++ [v])
  seqEnd := fun st => if failEnd then .error "seq finish refused" else .ok st

/-- A concrete map sink over `String`-keyed `Nat` entries whose three operations
can be made to refuse: at opening, at a chosen entry, or at finishing. -/
def mapTestSink (failOpen : Bool) (failEntry : String → Nat → Bool) (failEnd : Bool) :
    MapSerializer (List (String × Nat)) (List (String × Nat)) String String Nat where
  serializeMap := fun _ => if failOpen then .error "map open refused" else .ok []
  serializeEntry := fun st k v =>
    if failEntry k v then .error "map entry refused" else .ok (st ++ [(k, v)])
  mapEnd := fun st => if failEnd then .error "map finish refused" else .ok st

/-! ### Helper lemmas -/

/-- `RunResult.ofExcept` never produces a panic. -/
theorem RunResult.ofExcept_ne_panicked {β ε : Type} (x : Except ε β) (msg : String) :
    RunResult.ofExcept x ≠ RunResult.panicked msg := by
  cases x <;> simp [RunResult.ofExcept]

/-- On a loaded adapter, the `CloneOnce` serialization loop runs the plain
sequence loop over the wrapped iterator's remaining items, and in particular
never panics. -/
theorem serializeOnceLoop_loaded {α σ ok err : Type} (ser : Serializer σ ok err α)
    (it : Iter α) (st : σ) :
    seq.serializeOnceLoop ser ⟨some it⟩ st
      = RunResult.ofExcept (seq.serializeLoop ser it.items st) := by
  rcases it with ⟨items, lo, hi⟩
  induction items generalizing st with
  | nil =>
    rw [seq.serializeOnceLoop]
    simp [CloneOnce.next, Iter.next, seq.serializeLoop]
  | cons x xs ih =>
    rw [seq.serializeOnceLoop]
    simp only [CloneOnce.next, Iter.next, seq.serializeLoop]
    cases h : ser.serializeElement st x with
    | error e => simp [h, RunResult.ofExcept]
    | ok st' => simp [h, ih]

/-- Draining a loaded adapter yields all remaining items of the wrapped
iterator, in order, and leaves the (exhausted) iterator in the cell. -/
theorem drain_loaded {α : Type} (items : List α) (lo : Nat) (hi : Option Nat) :
    CloneOnce.drain ⟨some ⟨items, lo, hi⟩⟩ = .ok (items, ⟨some ⟨[], lo, hi⟩⟩) := by
  induction items with
  | nil =>
    rw [CloneOnce.drain]
    simp [CloneOnce.next, Iter.next]
  | cons x xs ih =>
    rw [CloneOnce.drain]
    simp [CloneOnce.next, Iter.next, ih]

/-- If every element submission succeeds, the sequence loop ends the sink on the
state obtained by pushing every item, in order. -/
theorem serializeLoop_push {α σ ok err : Type} (ser : Serializer σ ok err α)
    (push : σ → α → σ)
    (helem : ∀ s v, ser.serializeElement s v = .ok (push s v))
    (l : List α) (st : σ) :
    seq.serializeLoop ser l st = ser.seqEnd (l.foldl push st) := by
  induction l generalizing st with
  | nil => rfl
  | cons v rest ih => simp [seq.serializeLoop, helem, ih]

/-- If the submissions of `pre` succeed and the submission of `v` then fails,
the sequence loop returns that failure, whatever comes after `v`. -/
theorem serializeLoop_error_at {α σ ok err : Type} (ser : Serializer σ ok err α)
    (push : σ → α → σ) (pre : List α)
    (hpre : ∀ s w, w ∈ pre → ser.serializeElement s w = .ok (push s w))
    (v : α) (post : List α) (st : σ) (e : err)
    (hv : ser.serializeElement (pre.foldl push st) v = .error e) :
    seq.serializeLoop ser (pre ++ v :: post) st = .error e := by
  induction pre generalizing st with
  | nil =>
    simp only [List.foldl_nil] at hv
    simp [seq.serializeLoop, hv]
  | cons w ws ih =>
    have hw : ser.serializeElement st w = .ok (push st w) := hpre st w (by simp)
    simp only [List.cons_append, seq.serializeLoop, hw]
    exact ih (fun s w' hm => hpre s w' (by simp [hm])) _ (by simpa using hv)

/-- The sequence loop against the trace sink records each element submission in
order, then the finish call. -/
theorem serializeLoop_trace {α : Type} (l : List α) (st : List (SeqCall α)) :
    seq.serializeLoop (seqTraceSink α) l st
      = .ok (st ++ l.map SeqCall.elem ++ [SeqCall.finish]) := by
  induction l generalizing st with
  | nil => simp [seq.serializeLoop, seqTraceSink]
  | cons v rest ih =>
    have hstep : (seqTraceSink α).serializeElement st v = .ok (st ++ [SeqCall.elem v]) := rfl
    simp [seq.serializeLoop, hstep, ih]

/-- The sequence loop against the accumulating sink returns the accumulated
elements. -/
theorem serializeLoop_list {α : Type} (l : List α) (st : List α) :
    seq.serializeLoop (seqListSink α) l st = .ok (st ++ l) := by
  induction l generalizing st with
  | nil => simp [seq.serializeLoop, seqListSink]
  | cons v rest ih =>
    have hstep : (seqListSink α).serializeElement st v = .ok (st ++ [v]) := rfl
    simp [seq.serializeLoop, hstep, ih]

/-- If every entry submission succeeds, the map loop ends the sink on the state
obtained by pushing every pair, in order. -/
theorem mapLoop_push {κ ν σ ok err : Type} (ser : MapSerializer σ ok err κ ν)
    (push : σ → κ × ν → σ)
    (hentry : ∀ s k v, ser.serializeEntry s k v = .ok (push s (k, v)))
    (l : List (κ × ν)) (st : σ) :
    map.serializeLoop ser l st = ser.mapEnd (l.foldl push st) := by
  induction l generalizing st with
  | nil => rfl
  | cons p rest ih =>
    rcases p with ⟨k, v⟩
    simp [map.serializeLoop, hentry, ih]

/-- If the submissions of `pre` succeed and the submission of the entry `p` then
fails, the map loop returns that failure, whatever comes after `p`. -/
theorem mapLoop_error_at {κ ν σ ok err : Type} (ser : MapSerializer σ ok err κ ν)
    (push : σ → κ × ν → σ) (pre : List (κ × ν))
    (hpre : ∀ s q, q ∈ pre → ser.serializeEntry s q.1 q.2 = .ok (push s q))
    (p : κ × ν) (post : List (κ × ν)) (st : σ) (e : err)
    (hp : ser.serializeEntry (pre.foldl push st) p.1 p.2 = .error e) :
    map.serializeLoop ser (pre ++ p :: post) st = .error e := by
  induction pre generalizing st with
  | nil =>
    simp only [List.foldl_nil] at hp
    rcases p with ⟨k, v⟩
    simp [map.serializeLoop, hp]
  | cons q qs ih =>
    rcases q with ⟨k, v⟩
    have hq : ser.serializeEntry st k v = .ok (push st (k, v)) :=
      hpre st (k, v) (by simp)
    simp only [List.cons_append, map.serializeLoop, hq]
    exact ih (fun s q' hm => hpre s q' (by simp [hm])) _ (by simpa using hp)

/-- The map loop against the trace sink records each entry submission in order,
then the finish call. -/
theorem mapLoop_trace {κ ν : Type} (l : List (κ × ν)) (st : List (MapCall κ ν)) :
    map.serializeLoop (mapTraceSink κ ν) l st
      = .ok (st ++ l.map (fun p => MapCall.entry p.1 p.2) ++ [MapCall.finish]) := by
  induction l generalizing st with
  | nil => simp [map.serializeLoop, mapTraceSink]
  | cons p rest ih =>
    rcases p with ⟨k, v⟩
    have hstep : (mapTraceSink κ ν).serializeEntry st k v
        = .ok (st ++ [MapCall.entry k v]) := rfl
    simp [map.serializeLoop, hstep, ih]

/-- The map loop against the accumulating sink returns the accumulated entries. -/
theorem mapLoop_list {κ ν : Type} (l : List (κ × ν)) (st : List (κ × ν)) :
    map.serializeLoop (mapListSink κ ν) l st = .ok (st ++ l) := by
  induction l generalizing st with
  | nil => simp [map.serializeLoop, mapListSink]
  | cons p rest ih =>
    rcases p with ⟨k, v⟩
    have hstep : (mapListSink κ ν).serializeEntry st k v = .ok (st ++ [(k, v)]) := rfl
    simp [map.serializeLoop, hstep, ih]

/-! ### Claim theorems -/

/-- Claim C1: cloning a `CloneOnce` in state `Loaded(it)` replaces the
original's state with `Empty` and returns a new adapter in state `Loaded(it)`
holding the very same wrapped iterator; for an adapter built from items
`[1, 2, 3]`, cloning once and iterating the clone yields exactly `[1, 2, 3]`. -/
theorem C1_clone_relocates (α : Type) (it : Iter α) :
    CloneOnce.clone (⟨some it⟩ : CloneOnce α) = .ok (⟨none⟩, ⟨some it⟩)
    ∧ CloneOnce.clone (CloneOnce.fromIter (Iter.fromList ([1, 2, 3] : List Nat)))
        = .ok (⟨none⟩, ⟨some (Iter.fromList [1, 2, 3])⟩)
    ∧ CloneOnce.drain ⟨some (Iter.fromList ([1, 2, 3] : List Nat))⟩
        = .ok ([1, 2, 3], ⟨some ⟨[], 3, some 3⟩⟩) := by
  refine ⟨rfl, rfl, ?_⟩
  simpa [Iter.fromList] using drain_loaded ([1, 2, 3] : List Nat) 3 (some 3)

/-- Claim C2: under the strict policy, `clone` on an `Empty` adapter panics
("Attempt to clone a CloneOnce twice") and `next` on an `Empty` adapter panics
("Attempt to iterate over a CloneOnce"); after a first clone of a loaded
adapter, a second clone of the original panics, and iterating the original
panics, so the relocated iterator's data is never yielded twice. -/
theorem C2_strict_double_use (α : Type) (it : Iter α) :
    CloneOnce.clone (⟨none⟩ : CloneOnce α) = .error "Attempt to clone a CloneOnce twice"
    ∧ CloneOnce.next (⟨none⟩ : CloneOnce α) = .error "Attempt to iterate over a CloneOnce"
    ∧ ∀ orig copy, CloneOnce.clone (⟨some it⟩ : CloneOnce α) = .ok (orig, copy) →
        CloneOnce.clone orig = .error "Attempt to clone a CloneOnce twice"
        ∧ CloneOnce.next orig = .error "Attempt to iterate over a CloneOnce"
        ∧ CloneOnce.drain orig = .error "Attempt to iterate over a CloneOnce" := by
  refine ⟨rfl, rfl, fun orig copy h => ?_⟩
  simp only [CloneOnce.clone, Except.ok.injEq, Prod.mk.injEq] at h
  obtain ⟨h1, h2⟩ := h
  subst h1
  refine ⟨rfl, rfl, ?_⟩
  rw [CloneOnce.drain]
  simp [CloneOnce.next]

/-- Witness for C2 at a concrete input. -/
theorem C2_strict_double_use_witness :
    CloneOnce.clone (⟨none⟩ : CloneOnce Nat) = .error "Attempt to clone a CloneOnce twice"
    ∧ CloneOnce.next (⟨none⟩ : CloneOnce Nat) = .error "Attempt to iterate over a CloneOnce"
    ∧ CloneOnce.drain (⟨none⟩ : CloneOnce Nat)
        = .error "Attempt to iterate over a CloneOnce" := by
  have h := C2_strict_double_use Nat (Iter.fromList [1, 2, 3])
  exact ⟨h.1, h.2.1,
    (h.2.2 ⟨none⟩ ⟨some (Iter.fromList [1, 2, 3])⟩ rfl).2.2⟩

/-- Counterexample to claim C3: exhausting the wrapped iterator does NOT set
the cell to `None`.  Iterating a fresh adapter over `[1]` to exhaustion leaves
the cell holding `some` (the exhausted iterator), and the exhausted adapter is
distinguishable from a relocated one: cloning it succeeds instead of
panicking. -/
theorem C3_counterexample :
    CloneOnce.next (CloneOnce.fromIter (Iter.fromList ([1] : List Nat)))
      = .ok (some 1, ⟨some ⟨[], 1, some 1⟩⟩)
    ∧ CloneOnce.next (⟨some ⟨[], 1, some 1⟩⟩ : CloneOnce Nat)
      = .ok (none, ⟨some ⟨[], 1, some 1⟩⟩)
    ∧ (⟨some ⟨[], 1, some 1⟩⟩ : CloneOnce Nat).cell ≠ none
    ∧ CloneOnce.clone (⟨some ⟨[], 1, some 1⟩⟩ : CloneOnce Nat)
      = .ok (⟨none⟩, ⟨some ⟨[], 1, some 1⟩⟩)
    ∧ CloneOnce.clone (⟨none⟩ : CloneOnce Nat)
      = .error "Attempt to clone a CloneOnce twice" := by
  refine ⟨rfl, rfl, ?_, rfl, rfl⟩
  simp

/-- Claim C3 as amended: when the wrapped iterator of a loaded adapter is
exhausted, `next` returns "no more items" and the cell permanently KEEPS the
exhausted iterator (`some`); the adapter does not transition to `Empty`, so an
exhausted adapter remains distinguishable from a relocated one — `clone` and
`next` on it succeed instead of faulting. -/
theorem C3_amended (α : Type) (it : Iter α) (h : it.items = []) :
    CloneOnce.next (⟨some it⟩ : CloneOnce α) = .ok (none, ⟨some it⟩)
    ∧ CloneOnce.clone (⟨some it⟩ : CloneOnce α) = .ok (⟨none⟩, ⟨some it⟩)
    ∧ CloneOnce.drain (⟨some it⟩ : CloneOnce α) = .ok ([], ⟨some it⟩) := by
  rcases it with ⟨items, lo, hi⟩
  simp only at h
  subst h
  refine ⟨by simp [CloneOnce.next, Iter.next], rfl, ?_⟩
  exact drain_loaded [] lo hi

/-- Witness for the amended C3 at a concrete input. -/
theorem C3_amended_witness :
    CloneOnce.next (⟨some ⟨[], 2, some 2⟩⟩ : CloneOnce Nat) = .ok (none, ⟨some ⟨[], 2, some 2⟩⟩)
    ∧ CloneOnce.clone (⟨some ⟨[], 2, some 2⟩⟩ : CloneOnce Nat)
        = .ok (⟨none⟩, ⟨some ⟨[], 2, some 2⟩⟩)
    ∧ CloneOnce.drain (⟨some ⟨[], 2, some 2⟩⟩ : CloneOnce Nat)
        = .ok ([], ⟨some ⟨[], 2, some 2⟩⟩) :=
  C3_amended Nat ⟨[], 2, some 2⟩ rfl

/-- Claim C4: for every finite cloneable iterable and every sink that accepts
all submissions, `seq::serialize` ends the sink on the state obtained by
submitting exactly the iterable's items in iteration order; against the
accumulating sink the output equals the item list (hence has the same length),
and the empty iterable yields the empty sequence. -/
theorem C4_seq_serialize_items (α σ ok err : Type) (iter : Iter α)
    (ser : Serializer σ ok err α) (push : σ → α → σ) (s0 : σ)
    (hopen : ser.serializeSeq (some iter.sizeHintLo) = .ok s0)
    (helem : ∀ s v, ser.serializeElement s v = .ok (push s v)) :
    seq.serialize iter ser = ser.seqEnd (iter.items.foldl push s0)
    ∧ seq.serialize iter (seqListSink α) = .ok iter.items
    ∧ seq.serialize (Iter.fromList ([] : List Nat)) (seqListSink Nat) = .ok [] := by
  refine ⟨?_, ?_, rfl⟩
  · simp only [seq.serialize, Iter.clone, Iter.sizeHint, hopen]
    exact serializeLoop_push ser push helem iter.items s0
  · simp only [seq.serialize, Iter.clone, Iter.sizeHint, seqListSink]
    simpa using serializeLoop_list iter.items []

/-- Witness for C4 at a concrete input. -/
theorem C4_witness :
    seq.serialize (Iter.fromList [1, 2, 3]) (seqListSink Nat) = .ok [1, 2, 3] := by
  have h := C4_seq_serialize_items Nat (List Nat) (List Nat) Empty
    (Iter.fromList [1, 2, 3]) (seqListSink Nat) (fun st v => st ++ [v]) []
    rfl (fun s v => rfl)
  exact h.2.1

/-- Claim C5: for every finite cloneable iterable of key/value pairs and every
sink that accepts all submissions, `map::serialize` submits each pair as one
entry (key then value) in iteration order — no deduplication or sorting — so
against the accumulating sink the output is exactly the entry list (duplicate
keys preserved in order), and the empty iterable yields an empty map. -/
theorem C5_map_serialize_entries (κ ν σ ok err : Type) (iter : Iter (κ × ν))
    (ser : MapSerializer σ ok err κ ν) (push : σ → κ × ν → σ) (s0 : σ)
    (hopen : ser.serializeMap (some iter.sizeHintLo) = .ok s0)
    (hentry : ∀ s k v, ser.serializeEntry s k v = .ok (push s (k, v))) :
    map.serialize iter ser = ser.mapEnd (iter.items.foldl push s0)
    ∧ map.serialize iter (mapListSink κ ν) = .ok iter.items
    ∧ map.serialize iter (mapTraceSink κ ν)
        = .ok (MapCall.openMap (some iter.sizeHintLo)
            :: iter.items.map (fun p => MapCall.entry p.1 p.2) ++ [MapCall.finish])
    ∧ map.serialize (Iter.fromList [("a", 1), ("a", 2)]) (mapListSink String Nat)
        = .ok [("a", 1), ("a", 2)]
    ∧ map.serialize (Iter.fromList ([] : List (String × Nat))) (mapListSink String Nat)
        = .ok [] := by
  refine ⟨?_, ?_, ?_, ?_, rfl⟩
  · simp only [map.serialize, Iter.clone, Iter.sizeHint, hopen]
    exact mapLoop_push ser push hentry iter.items s0
  · simp only [map.serialize, Iter.clone, Iter.sizeHint, mapListSink]
    simpa using mapLoop_list iter.items []
  · simp only [map.serialize, Iter.clone, Iter.sizeHint, mapTraceSink]
    simpa using mapLoop_trace iter.items [MapCall.openMap (some iter.sizeHintLo)]
  · simp only [map.serialize, Iter.clone, Iter.sizeHint, mapListSink]
    simpa using mapLoop_list ([("a", 1), ("a", 2)] : List (String × Nat)) []

/-- Witness for C5 at a concrete input. -/
theorem C5_witness :
    map.serialize (Iter.fromList [("qux", 3)]) (mapListSink String Nat) = .ok [("qux", 3)] := by
  have h := C5_map_serialize_entries String Nat (List (String × Nat)) (List (String × Nat))
    Empty (Iter.fromList [("qux", 3)]) (mapListSink String Nat)
    (fun st p => st ++ [p]) [] rfl (fun s k v => rfl)
  exact h.2.1

/-- Claim C6: serializing a freshly constructed `CloneOnce` once via
`seq::serialize` never raises a double-use fault — whatever the sink does — and
against the trace sink it submits exactly the wrapped iterator's items in order
(one open, the elements, one finish), consuming only the clone: the original
adapter is left relocated (`Empty`). -/
theorem C6_serializeOnce_fresh (α σ ok err : Type) (it : Iter α)
    (ser : Serializer σ ok err α) :
    (∀ msg, (seq.serializeOnce (CloneOnce.fromIter it) ser).1 ≠ RunResult.panicked msg)
    ∧ seq.serializeOnce (CloneOnce.fromIter it) (seqTraceSink α)
        = (.ok (SeqCall.openSeq (some 0) :: it.items.map SeqCall.elem ++ [SeqCall.finish]),
           ⟨none⟩) := by
  constructor
  · intro msg
    simp only [seq.serializeOnce, CloneOnce.fromIter, CloneOnce.clone, CloneOnce.sizeHint]
    cases h : ser.serializeSeq (some 0) with
    | error e => simp
    | ok st =>
      simp only [serializeOnceLoop_loaded]
      exact RunResult.ofExcept_ne_panicked _ msg
  · simp only [seq.serializeOnce, CloneOnce.fromIter, CloneOnce.clone, CloneOnce.sizeHint]
    have hopen : (seqTraceSink α).serializeSeq (some 0) = .ok [SeqCall.openSeq (some 0)] := rfl
    simp only [hopen, serializeOnceLoop_loaded, serializeLoop_trace]
    simp [RunResult.ofExcept]

/-- Claim C7: `seq::serialize` and `map::serialize` return any sink failure —
at opening, at an element/entry submission, or at finishing — exactly as the
sink reported it, with no local error; for a failing element/entry the sink's
behaviour on the remaining items is unconstrained, so nothing is submitted
after the failing call. -/
theorem C7_error_propagation (α κ ν σ σm ok okm err errm : Type)
    (iter : Iter α) (ser : Serializer σ ok err α)
    (miter : Iter (κ × ν)) (mser : MapSerializer σm okm errm κ ν) :
    (∀ e, ser.serializeSeq (some iter.sizeHintLo) = .error e →
        seq.serialize iter ser = .error e)
    ∧ (∀ (push : σ → α → σ) s0 pre v post e,
        iter.items = pre ++ v :: post →
        ser.serializeSeq (some iter.sizeHintLo) = .ok s0 →
        (∀ s w, w ∈ pre → ser.serializeElement s w = .ok (push s w)) →
        ser.serializeElement (pre.foldl push s0) v = .error e →
        seq.serialize iter ser = .error e)
    ∧ (∀ (push : σ → α → σ) s0 e,
        ser.serializeSeq (some iter.sizeHintLo) = .ok s0 →
        (∀ s w, ser.serializeElement s w = .ok (push s w)) →
        ser.seqEnd (iter.items.foldl push s0) = .error e →
        seq.serialize iter ser = .error e)
    ∧ (∀ e, mser.serializeMap (some miter.sizeHintLo) = .error e →
        map.serialize miter mser = .error e)
    ∧ (∀ (push : σm → κ × ν → σm) s0 pre p post e,
        miter.items = pre ++ p :: post →
        mser.serializeMap (some miter.sizeHintLo) = .ok s0 →
        (∀ s q, q ∈ pre → mser.serializeEntry s q.1 q.2 = .ok (push s q)) →
        mser.serializeEntry (pre.foldl push s0) p.1 p.2 = .error e →
        map.serialize miter mser = .error e)
    ∧ (∀ (push : σm → κ × ν → σm) s0 e,
        mser.serializeMap (some miter.sizeHintLo) = .ok s0 →
        (∀ s q, mser.serializeEntry s q.1 q.2 = .ok (push s q)) →
        mser.mapEnd (miter.items.foldl push s0) = .error e →
        map.serialize miter mser = .error e) := by
  refine ⟨?_, ?_, ?_, ?_, ?_, ?_⟩
  · intro e he
    simp [seq.serialize, Iter.clone, Iter.sizeHint, he]
  · intro push s0 pre v post e hitems hopen hpre hv
    simp only [seq.serialize, Iter.clone, Iter.sizeHint, hopen, hitems]
    exact serializeLoop_error_at ser push pre hpre v post s0 e hv
  · intro push s0 e hopen helem hend
    simp only [seq.serialize, Iter.clone, Iter.sizeHint, hopen]
    rw [serializeLoop_push ser push helem iter.items s0]
    exact hend
  · intro e he
    simp [map.serialize, Iter.clone, Iter.sizeHint, he]
  · intro push s0 pre p post e hitems hopen hpre hp
    simp only [map.serialize, Iter.clone, Iter.sizeHint, hopen, hitems]
    exact mapLoop_error_at mser push pre hpre p post s0 e hp
  · intro push s0 e hopen hentry hend
    simp only [map.serialize, Iter.clone, Iter.sizeHint, hopen]
    rw [mapLoop_push mser push (fun s k v => hentry s (k, v)) miter.items s0]
    exact hend

/-- Witness for C7 at concrete inputs: each of the six failure points with a
concrete refusing sink. -/
theorem C7_witness :
    seq.serialize (Iter.fromList [1, 2, 3]) (seqTestSink true (fun _ => false) false)
      = .error "seq open refused"
    ∧ seq.serialize (Iter.fromList [1, 2, 3]) (seqTestSink false (fun v => v == 2) false)
      = .error "seq element refused"
    ∧ seq.serialize (Iter.fromList [1, 2, 3]) (seqTestSink false (fun _ => false) true)
      = .error "seq finish refused"
    ∧ map.serialize (Iter.fromList [("a", 1), ("b", 2)]) (mapTestSink true (fun _ _ => false) false)
      = .error "map open refused"
    ∧ map.serialize (Iter.fromList [("a", 1), ("b", 2)])
        (mapTestSink false (fun k _ => k == "b") false)
      = .error "map entry refused"
    ∧ map.serialize (Iter.fromList [("a", 1), ("b", 2)]) (mapTestSink false (fun _ _ => false) true)
      = .error "map finish refused" := by
  refine ⟨?_, ?_, ?_, ?_, ?_, ?_⟩
  · exact (C7_error_propagation Nat String Nat (List Nat) (List (String × Nat))
      (List Nat) (List (String × Nat)) String String
      (Iter.fromList [1, 2, 3]) (seqTestSink true (fun _ => false) false)
      (Iter.fromList [("a", 1), ("b", 2)]) (mapTestSink true (fun _ _ => false) false)).1
      "seq open refused" rfl
  · exact (C7_error_propagation Nat String Nat (List Nat) (List (String × Nat))
      (List Nat) (List (String × Nat)) String String
      (Iter.fromList [1, 2, 3]) (seqTestSink false (fun v => v == 2) false)
      (Iter.fromList [("a", 1), ("b", 2)]) (mapTestSink true (fun _ _ => false) false)).2.1
      (fun st v => st ++ [v]) [] [1] 2 [3] "seq element refused" rfl rfl
      (by intro s w hw; simp only [List.mem_singleton] at hw; subst hw; rfl) rfl
  · exact (C7_error_propagation Nat String Nat (List Nat) (List (String × Nat))
      (List Nat) (List (String × Nat)) String String
      (Iter.fromList [1, 2, 3]) (seqTestSink false (fun _ => false) true)
      (Iter.fromList [("a", 1), ("b", 2)]) (mapTestSink true (fun _ _ => false) false)).2.2.1
      (fun st v => st ++ [v]) [] "seq finish refused" rfl (fun s w => rfl) rfl
  · exact (C7_error_propagation Nat String Nat (List Nat) (List (String × Nat))
      (List Nat) (List (String × Nat)) String String
      (Iter.fromList [1, 2, 3]) (seqTestSink true (fun _ => false) false)
      (Iter.fromList [("a", 1), ("b", 2)]) (mapTestSink true (fun _ _ => false) false)).2.2.2.1
      "map open refused" rfl
  · exact (C7_error_propagation Nat String Nat (List Nat) (List (String × Nat))
      (List Nat) (List (String × Nat)) String String
      (Iter.fromList [1, 2, 3]) (seqTestSink true (fun _ => false) false)
      (Iter.fromList [("a", 1), ("b", 2)]) (mapTestSink false (fun k _ => k == "b") false)).2.2.2.2.1
      (fun st p => st ++ [p]) [] [("a", 1)] ("b", 2) [] "map entry refused" rfl rfl
      (by intro s q hq; simp only [List.mem_singleton] at hq; subst hq; rfl) rfl
  · exact (C7_error_propagation Nat String Nat (List Nat) (List (String × Nat))
      (List Nat) (List (String × Nat)) String String
      (Iter.fromList [1, 2, 3]) (seqTestSink true (fun _ => false) false)
      (Iter.fromList [("a", 1), ("b", 2)]) (mapTestSink false (fun _ _ => false) true)).2.2.2.2.2
      (fun st p => st ++ [p]) [] "map finish refused" rfl (fun s q => rfl) rfl

/-- Claim C8: the hint passed when opening the sequence/map sink is exactly the
iterator's `size_hint().0` lower bound, and two iterables with the same items
(but possibly different hints) cause the same element submissions and the same
final output. -/
theorem C8_size_hint (α κ ν : Type) (iter iter2 : Iter α) (miter miter2 : Iter (κ × ν))
    (hitems : iter.items = iter2.items) (hmitems : miter.items = miter2.items) :
    seq.serialize iter (seqTraceSink α)
      = .ok (SeqCall.openSeq (some iter.sizeHintLo)
          :: iter.items.map SeqCall.elem ++ [SeqCall.finish])
    ∧ map.serialize miter (mapTraceSink κ ν)
      = .ok (MapCall.openMap (some miter.sizeHintLo)
          :: miter.items.map (fun p => MapCall.entry p.1 p.2) ++ [MapCall.finish])
    ∧ seq.serialize iter (seqListSink α) = seq.serialize iter2 (seqListSink α)
    ∧ map.serialize miter (mapListSink κ ν) = map.serialize miter2 (mapListSink κ ν)
    ∧ (∀ (σ ok err : Type) (ser : Serializer σ ok err α) (st : σ),
        seq.serializeLoop ser iter.items st = seq.serializeLoop ser iter2.items st)
    ∧ (∀ (σ ok err : Type) (mser : MapSerializer σ ok err κ ν) (st : σ),
        map.serializeLoop mser miter.items st = map.serializeLoop mser miter2.items st) := by
  refine ⟨?_, ?_, ?_, ?_, ?_, ?_⟩
  · simp only [seq.serialize, Iter.clone, Iter.sizeHint]
    have hopen : (seqTraceSink α).serializeSeq (some iter.sizeHintLo)
        = .ok [SeqCall.openSeq (some iter.sizeHintLo)] := rfl
    simp only [hopen, serializeLoop_trace]
    simp
  · simp only [map.serialize, Iter.clone, Iter.sizeHint]
    have hopen : (mapTraceSink κ ν).serializeMap (some miter.sizeHintLo)
        = .ok [MapCall.openMap (some miter.sizeHintLo)] := rfl
    simp only [hopen, mapLoop_trace]
    simp
  · have h1 : (seqListSink α).serializeSeq (some iter.sizeHintLo) = .ok [] := rfl
    have h2 : (seqListSink α).serializeSeq (some iter2.sizeHintLo) = .ok [] := rfl
    simp only [seq.serialize, Iter.clone, Iter.sizeHint, h1, h2, hitems]
  · have h1 : (mapListSink κ ν).serializeMap (some miter.sizeHintLo) = .ok [] := rfl
    have h2 : (mapListSink κ ν).serializeMap (some miter2.sizeHintLo) = .ok [] := rfl
    simp only [map.serialize, Iter.clone, Iter.sizeHint, h1, h2, hmitems]
  · intro σ ok err ser st
    rw [hitems]
  · intro σ ok err mser st
    rw [hmitems]

/-- Witness for C8 at concrete inputs (same items, different size hints). -/
theorem C8_witness :
    seq.serialize (⟨[7], 0, none⟩ : Iter Nat) (seqTraceSink Nat)
      = .ok [SeqCall.openSeq (some 0), SeqCall.elem 7, SeqCall.finish]
    ∧ seq.serialize (⟨[7], 0, none⟩ : Iter Nat) (seqListSink Nat)
      = seq.serialize (⟨[7], 5, some 9⟩ : Iter Nat) (seqListSink Nat)
    ∧ map.serialize (⟨[(("a" : String), (1 : Nat))], 0, none⟩ : Iter (String × Nat))
        (mapListSink String Nat)
      = map.serialize (⟨[("a", 1)], 4, none⟩ : Iter (String × Nat)) (mapListSink String Nat) := by
  have h := C8_size_hint Nat String Nat (⟨[7], 0, none⟩ : Iter Nat) (⟨[7], 5, some 9⟩ : Iter Nat)
    (⟨[("a", 1)], 0, none⟩ : Iter (String × Nat)) (⟨[("a", 1)], 4, none⟩ : Iter (String × Nat))
    rfl rfl
  exact ⟨h.1, h.2.2.1, h.2.2.2.1⟩

/-- Claim C9: `CloneOnce` does not forward the wrapped iterator's size estimate:
its `size_hint` is the default `(0, unknown)`, and `seq::serialize` on a
`CloneOnce` always opens the sink with a lower-bound hint of `0` — in the
concrete case even though the wrapped iterator over `[1, 2, 3]` reports an exact
lower bound of `3`. -/
theorem C9_cloneonce_size_hint (α σ ok err : Type) (c : CloneOnce α) (it : Iter α)
    (ser : Serializer σ ok err α) :
    CloneOnce.sizeHint c = (0, none)
    ∧ seq.serializeOnce (CloneOnce.fromIter it) ser
        = (match ser.serializeSeq (some 0) with
           | .error e => (.err e, ⟨none⟩)
           | .ok st => (seq.serializeOnceLoop ser ⟨some it⟩ st, ⟨none⟩))
    ∧ (seq.serializeOnce (CloneOnce.fromIter (Iter.fromList ([1, 2, 3] : List Nat)))
          (seqTraceSink Nat)).1
        = .ok [SeqCall.openSeq (some 0), SeqCall.elem 1, SeqCall.elem 2, SeqCall.elem 3,
               SeqCall.finish]
    ∧ (Iter.fromList ([1, 2, 3] : List Nat)).sizeHintLo = 3 := by
  refine ⟨rfl, rfl, ?_, rfl⟩
  simp only [seq.serializeOnce, CloneOnce.fromIter, CloneOnce.clone, CloneOnce.sizeHint]
  have hopen : (seqTraceSink Nat).serializeSeq (some 0) = .ok [SeqCall.openSeq (some 0)] := rfl
  simp only [hopen, serializeOnceLoop_loaded, serializeLoop_trace]
  simp [RunResult.ofExcept, Iter.fromList]

/-- Counterexample to claim C10 as stated: two iterables yielding equal item
sequences but different size-hint lower bounds, run against the same sink,
produce different sink-call sequences (the open hints differ) and different
results from the trace sink. -/
theorem C10_counterexample :
    (⟨[], 0, none⟩ : Iter Nat).items = (⟨[], 5, none⟩ : Iter Nat).items
    ∧ seq.serialize (⟨[], 0, none⟩ : Iter Nat) (seqTraceSink Nat)
        = .ok [SeqCall.openSeq (some 0), SeqCall.finish]
    ∧ seq.serialize (⟨[], 5, none⟩ : Iter Nat) (seqTraceSink Nat)
        = .ok [SeqCall.openSeq (some 5), SeqCall.finish]
    ∧ seq.serialize (⟨[], 0, none⟩ : Iter Nat) (seqTraceSink Nat)
        ≠ seq.serialize (⟨[], 5, none⟩ : Iter Nat) (seqTraceSink Nat) := by
  refine ⟨rfl, rfl, rfl, ?_⟩
  decide

/-- Claim C10 as amended: `seq::serialize` and `map::serialize` are
deterministic once the iterables agree on both the item sequence and the
size-hint lower bound — for any sink the returned result is identical, and
against the trace sink the recorded sink-call sequence is identical. -/
theorem C10_deterministic (α κ ν : Type) (iter iter2 : Iter α) (miter miter2 : Iter (κ × ν))
    (h1 : iter.items = iter2.items) (h2 : iter.sizeHintLo = iter2.sizeHintLo)
    (h3 : miter.items = miter2.items) (h4 : miter.sizeHintLo = miter2.sizeHintLo) :
    (∀ (σ ok err : Type) (ser : Serializer σ ok err α),
        seq.serialize iter ser = seq.serialize iter2 ser)
    ∧ (∀ (σ ok err : Type) (mser : MapSerializer σ ok err κ ν),
        map.serialize miter mser = map.serialize miter2 mser)
    ∧ seq.serialize iter (seqTraceSink α) = seq.serialize iter2 (seqTraceSink α)
    ∧ map.serialize miter (mapTraceSink κ ν) = map.serialize miter2 (mapTraceSink κ ν) := by
  have hseq : ∀ (σ ok err : Type) (ser : Serializer σ ok err α),
      seq.serialize iter ser = seq.serialize iter2 ser := by
    intro σ ok err ser
    simp only [seq.serialize, Iter.clone, Iter.sizeHint, h1, h2]
  have hmap : ∀ (σ ok err : Type) (mser : MapSerializer σ ok err κ ν),
      map.serialize miter mser = map.serialize miter2 mser := by
    intro σ ok err mser
    simp only [map.serialize, Iter.clone, Iter.sizeHint, h3, h4]
  exact ⟨hseq, hmap, hseq _ _ _ _, hmap _ _ _ _⟩

/-- Witness for the amended C10 at concrete inputs. -/
theorem C10_deterministic_witness :
    seq.serialize (⟨[1, 2], 2, some 2⟩ : Iter Nat) (seqTraceSink Nat)
      = seq.serialize (⟨[1, 2], 2, none⟩ : Iter Nat) (seqTraceSink Nat)
    ∧ map.serialize (⟨[(("k" : String), (9 : Nat))], 1, some 1⟩ : Iter (String × Nat))
        (mapTraceSink String Nat)
      = map.serialize (⟨[("k", 9)], 1, none⟩ : Iter (String × Nat)) (mapTraceSink String Nat) := by
  have h := C10_deterministic Nat String Nat (⟨[1, 2], 2, some 2⟩ : Iter Nat)
    (⟨[1, 2], 2, none⟩ : Iter Nat) (⟨[("k", 9)], 1, some 1⟩ : Iter (String × Nat))
    (⟨[("k", 9)], 1, none⟩ : Iter (String × Nat)) rfl rfl rfl rfl
  exact ⟨h.2.2.1, h.2.2.2⟩
